import Mathlib

/-!
Shallow embedding of the `terminator` pod reaper (`main.go`) and proofs of
its specified properties.

Durations and instants are modelled as `Int` nanoseconds, matching Go's
`time.Duration` / `time.Time` arithmetic in the source. Kubernetes API
effects (update / delete calls) are recorded in an ordered trace, and the
API's responses are supplied by an environment record, so the functions
below are the source functions with the client calls made explicit.
A Go nil-pointer dereference (the unguarded `*pod.Spec.
TerminationGracePeriodSeconds`) is modelled as `Option.none` propagating
out of `processPod`.
-/

namespace Terminator

/-- One nanosecond per Go `time.Second`, used when a pod's
`terminationGracePeriodSeconds` (seconds) is scaled to a `time.Duration`. -/
def nsPerSecond : Int := 1000000000

/-- Model of `metav1.OwnerReference`, restricted to the fields the program reads. -/
structure OwnerReference where
  kind : String
  name : String
deriving DecidableEq, Repr

/-- The fields of a fetched `v1.Pod` that the program reads.
`deletionTimestamp` and `terminationGracePeriodSeconds` are pointers in the
Go API types, hence `Option` here. -/
structure Pod where
  name : String
  «namespace» : String
  deletionTimestamp : Option Int
  terminationGracePeriodSeconds : Option Int
  finalizers : List String
  ownerReferences : List OwnerReference
deriving DecidableEq, Repr

/-- The command-line configuration fields consumed by the scan logic
(struct `CLI` in the source; logging fields omitted as they only select a
sink). `gracePeriod` and the other durations are nanoseconds. -/
structure CLI where
  dryRun : Bool
  gracePeriod : Int
  interval : Int
  namespaces : List String
  pods : List String
  noRemoveFinalizers : Bool
  startupDelay : Int
deriving DecidableEq, Repr

/-- Severity of a log entry (`go-kit/log/level`). -/
inductive LogLevel where
  | info
  | warn
  | error
deriving DecidableEq, Repr

/-- The distinct log messages the scan logic can emit. Each pod-scoped
message carries the identity that `formatPodName` interpolates into it,
plus any further interpolated data a property depends on (the elapsed and
grace durations printed by the pre-deletion warning are elided). -/
inductive LogMsg where
  | cannotGetPod («namespace» name : String)
  | cannotTerminateStaticPod («namespace» name : String)
  | terminatingExceeded («namespace» name : String)
  | wouldBeForceDeleted («namespace» name : String) (finalizers : List String)
  | cannotDeleteHasFinalizers («namespace» name : String)
  | cannotRemoveFinalizers («namespace» name : String)
  | removedFinalizers («namespace» name : String) (finalizers : List String)
  | forceDeleted («namespace» name : String)
  | cannotForceDelete («namespace» name : String)
  | cannotListNamespaces
  | cannotListPods («namespace» : String)
deriving DecidableEq, Repr

/-- A log entry: severity paired with message. -/
abbrev LogEntry : Type := LogLevel × LogMsg

/-- A mutating Kubernetes API call issued by the program: an `Update`
carrying the finalizer list written to the pod, or a `Delete` carrying the
`gracePeriodSeconds` of its `DeleteOptions`. -/
inductive APICall where
  | update («namespace» name : String) (finalizers : List String)
  | delete («namespace» name : String) (gracePeriodSeconds : Int)
deriving DecidableEq, Repr

/-- Outcome of the `Delete` API call: success, a `*errors.StatusError`
with its HTTP code, or any other error. -/
inductive DeleteResult where
  | ok
  | statusErr (code : Int)
  | otherErr
deriving DecidableEq, Repr

/-- A fallible API response: a value or an opaque failure (the program
never inspects the error beyond logging its text). -/
inductive Fallible (α : Type) where
  | ok (val : α)
  | err
deriving DecidableEq, Repr

/-- The API responses one `processPod` invocation can observe: the result
of the fresh `Get`, of the finalizer-clearing `Update` (`none` = success,
`some _` = error), and of the `Delete`. -/
structure PodEnv where
  getResult : Fallible Pod
  updateResult : Option Unit
  deleteResult : DeleteResult
deriving DecidableEq, Repr

/-- Function `isStaticPod`: a pod is static iff some owner reference has kind
`"Node"`. -/
def isStaticPod (pod : Pod) : Bool :=
  pod.ownerReferences.any fun o => o.kind = "Node"

/-- Function `removeFinalizers`: returns whether the delete may proceed, together
with the API calls issued and log entries emitted.
Empty finalizer list: trivial success, no call, no log.
`NoRemoveFinalizers` set: warn and report failure, no call.
Otherwise issue the `Update` clearing the list; report failure on error,
else log the finalizers that were removed and report success. -/
def removeFinalizers (cli : CLI) (env : PodEnv) (pod : Pod) :
    Bool × List APICall × List LogEntry :=
  if pod.finalizers.length = 0 then
    (true, [], [])
  else if cli.noRemoveFinalizers then
    (false, [], [(LogLevel.warn, LogMsg.cannotDeleteHasFinalizers pod.«namespace» pod.name)])
  else
    let call := APICall.update pod.«namespace» pod.name []
    match env.updateResult with
    | some _ =>
        (false, [call], [(LogLevel.warn, LogMsg.cannotRemoveFinalizers pod.«namespace» pod.name)])
    | none =>
        (true, [call],
         [(LogLevel.warn, LogMsg.removedFinalizers pod.«namespace» pod.name pod.finalizers)])

/-- Function `deletePod`: issues the `Delete` with `gracePeriodSeconds = 0`; logs a
warning on success and on a 404 `StatusError` (pod already gone), and an
error-level entry on any other failure. -/
def deletePod (cli : CLI) (env : PodEnv) (pod : Pod) :
    List APICall × List LogEntry :=
  let call := APICall.delete pod.«namespace» pod.name 0
  match env.deleteResult with
  | DeleteResult.ok =>
      ([call], [(LogLevel.warn, LogMsg.forceDeleted pod.«namespace» pod.name)])
  | DeleteResult.statusErr code =>
      if code = 404 then
        ([call], [(LogLevel.warn, LogMsg.forceDeleted pod.«namespace» pod.name)])
      else
        ([call], [(LogLevel.error, LogMsg.cannotForceDelete pod.«namespace» pod.name)])
  | DeleteResult.otherErr =>
      ([call], [(LogLevel.error, LogMsg.cannotForceDelete pod.«namespace» pod.name)])

/-- Function `processPod`: fetch the pod fresh (the listed identity
`«namespace»`/`podName` names the pod being fetched), then decide. Returns
the ordered trace of mutating API calls and the log entries, or `none`
where the Go code would panic dereferencing a nil
`TerminationGracePeriodSeconds`. `now` is the instant sampled by
`time.Now()`. -/
def processPod (cli : CLI) (env : PodEnv) («namespace» podName : String) (now : Int) :
    Option (List APICall × List LogEntry) :=
  match env.getResult with
  | Fallible.err => some ([], [(LogLevel.error, LogMsg.cannotGetPod «namespace» podName)])
  | Fallible.ok pod =>
    match pod.deletionTimestamp with
    | none => some ([], [])
    | some deletionTimestamp =>
      if isStaticPod pod then
        some ([], [(LogLevel.warn, LogMsg.cannotTerminateStaticPod pod.«namespace» pod.name)])
      else
        match pod.terminationGracePeriodSeconds with
        | none => none
        | some tgps =>
          let syntheticGracePeriod := tgps * nsPerSecond + cli.gracePeriod
          let deleteBy := now - syntheticGracePeriod
          if ¬ deletionTimestamp < deleteBy then
            some ([], [])
          else
            let headLog : LogEntry :=
              (LogLevel.warn, LogMsg.terminatingExceeded pod.«namespace» pod.name)
            if cli.dryRun then
              some ([], [headLog,
                         (LogLevel.warn,
                          LogMsg.wouldBeForceDeleted pod.«namespace» pod.name pod.finalizers)])
            else
              match removeFinalizers cli env pod with
              | (false, calls1, logs1) =>
                  some (calls1, headLog :: logs1)
              | (true, calls1, logs1) =>
                  let (calls2, logs2) := deletePod cli env pod
                  some (calls1 ++ calls2, headLog :: (logs1 ++ logs2))

/-- State of the buffered `done` channel (capacity 1, never closed):
`some ()` when the signal handler's single message is buffered, `none`
when empty. `signalHandler` performs `done <- true` once, taking the state
from `none` to `some ()`. -/
def raiseSignal (_ch : Option Unit) : Option Unit := some ()

/-- Function `signalRaised`: non-blocking receive on the `done` channel. Returns
whether a shutdown was observed together with the channel state afterwards;
a successful receive consumes the buffered message. -/
def signalRaised (raised : Option Unit) : Bool × Option Unit :=
  match raised with
  | some _ => (true, none)
  | none => (false, none)

/-- Function `sleep`: race the `done` channel against the timer. If the signal
message is available (now or during the wait) the sleep is cut short and
`false` is returned, the receive consuming the message; otherwise the
timer fires and `true` is returned. `signalDuringWait` says whether the
handler's message becomes available before the timer fires. -/
def sleep (ch : Option Unit) (signalDuringWait : Bool) : Bool × Option Unit :=
  match ch with
  | some _ => (false, none)
  | none => if signalDuringWait then (false, none) else (true, none)

/-- The API responses one scan cycle can observe: the namespace listing,
the per-namespace pod listing (pod names), and the per-pod `PodEnv`
consumed by `processPod`. -/
structure ScanEnv where
  listNamespacesResult : Fallible (List String)
  listPodsResult : String → Fallible (List String)
  podEnv : String → String → PodEnv

/-- Everything one `processPod` call contributed to the cycle: the pod's
identity and the API calls and log entries it produced. -/
abbrev PodOutcome : Type := (String × String) × List APICall × List LogEntry

/-- Result of (part of) a scan cycle: whether the loop should keep running
(`false` = shut down), the channel state afterwards, log entries emitted by
the enumerator itself, and the outcomes of the pods that were processed. -/
structure ScanResult where
  keepRunning : Bool
  chan : Option Unit
  logs : List LogEntry
  processed : List PodOutcome
deriving DecidableEq, Repr

/-- The inner pod loop of `processNamespaces`: for each listed pod name,
poll the shutdown signal (aborting the scan if raised), apply the
name-prefix filter, and run `processPod`. `none` propagates a `processPod`
panic. -/
def processPods (cli : CLI) (env : ScanEnv) (now : Int) (ch : Option Unit)
    («namespace» : String) (pods : List String) : Option ScanResult :=
  match pods with
  | [] => some ⟨true, ch, [], []⟩
  | podName :: rest =>
    let sr := signalRaised ch
    if sr.1 then
      some ⟨false, sr.2, [], []⟩
    else if cli.pods.length > 0 ∧ ¬ cli.pods.any (fun pre => podName.startsWith pre) then
      processPods cli env now sr.2 «namespace» rest
    else
      match processPod cli (env.podEnv «namespace» podName) «namespace» podName now with
      | none => none
      | some (calls, logs) =>
        match processPods cli env now sr.2 «namespace» rest with
        | none => none
        | some r =>
            some ⟨r.keepRunning, r.chan, r.logs,
                  ((«namespace», podName), calls, logs) :: r.processed⟩

/-- The namespace loop of `processNamespaces`: skip namespaces excluded by
the `--namespaces` filter, log and skip a namespace whose pod listing
fails, and otherwise run the pod loop, stopping the whole scan as soon as
it reports shutdown. -/
def processNamespacesAux (cli : CLI) (env : ScanEnv) (now : Int)
    (ch : Option Unit) (nss : List String) : Option ScanResult :=
  match nss with
  | [] => some ⟨true, ch, [], []⟩
  | ns :: rest =>
    if cli.namespaces.length > 0 ∧ ¬ cli.namespaces.contains ns then
      processNamespacesAux cli env now ch rest
    else
      match env.listPodsResult ns with
      | Fallible.err =>
        match processNamespacesAux cli env now ch rest with
        | none => none
        | some r =>
            some ⟨r.keepRunning, r.chan,
                  (LogLevel.error, LogMsg.cannotListPods ns) :: r.logs, r.processed⟩
      | Fallible.ok pods =>
        match processPods cli env now ch ns pods with
        | none => none
        | some r1 =>
          if ¬ r1.keepRunning then
            some ⟨false, r1.chan, r1.logs, r1.processed⟩
          else
            match processNamespacesAux cli env now r1.chan rest with
            | none => none
            | some r2 =>
                some ⟨r2.keepRunning, r2.chan, r1.logs ++ r2.logs,
                      r1.processed ++ r2.processed⟩

/-- Function `processNamespaces`: list the namespaces; on failure log and return
`true` (the control loop continues with the next cycle); otherwise iterate
the namespace loop. -/
def processNamespaces (cli : CLI) (env : ScanEnv) (now : Int)
    (ch : Option Unit) : Option ScanResult :=
  match env.listNamespacesResult with
  | Fallible.err =>
      some ⟨true, ch, [(LogLevel.error, LogMsg.cannotListNamespaces)], []⟩
  | Fallible.ok nss => processNamespacesAux cli env now ch nss

/-! Concrete sample data used to witness the theorems below. -/

/-- A terminating pod with one finalizer, deleted at instant 0. -/
def samplePod : Pod :=
  { name := "pod-1", «namespace» := "default", deletionTimestamp := some 0,
    terminationGracePeriodSeconds := some 30,
    finalizers := ["kubernetes"], ownerReferences := [] }

/-- Pod `samplePod` with its finalizer list emptied. -/
def emptyFinPod : Pod := { samplePod with finalizers := [] }

/-- Pod `samplePod` owned by a node, i.e. a static pod. -/
def nodeOwnedPod : Pod :=
  { samplePod with ownerReferences := [{ kind := "Node", name := "node-1" }] }

/-- Pod `samplePod` with a nil `terminationGracePeriodSeconds` pointer. -/
def nilGracePod : Pod := { samplePod with terminationGracePeriodSeconds := none }

/-- The default configuration: 1h extra grace, 5m interval, no filters,
finalizer removal enabled, no dry run. -/
def sampleCLI : CLI :=
  { dryRun := false, gracePeriod := 3600 * nsPerSecond, interval := 300 * nsPerSecond,
    namespaces := [], pods := [], noRemoveFinalizers := false, startupDelay := 0 }

/-- An instant 10000 s after `samplePod`'s deletion timestamp, well past
its 3630 s synthetic grace period. -/
def sampleNow : Int := 10000 * nsPerSecond

/-- An environment in which the fresh `Get` returns `pod` and the update
and delete calls succeed. -/
def envFor (pod : Pod) : PodEnv :=
  { getResult := Fallible.ok pod, updateResult := none, deleteResult := DeleteResult.ok }

/-- Like `envFor samplePod` but the delete returns a 404 `StatusError`. -/
def env404 : PodEnv :=
  { getResult := Fallible.ok samplePod, updateResult := none,
    deleteResult := DeleteResult.statusErr 404 }

/-- Configuration `sampleCLI` with `--dry-run`. -/
def dryRunCLI : CLI := { sampleCLI with dryRun := true }

/-- Configuration `sampleCLI` with `--no-remove-finalizers`. -/
def noRemoveCLI : CLI := { sampleCLI with noRemoveFinalizers := true }

/-- A scan cycle in which the namespace listing itself fails. -/
def failNsEnv : ScanEnv :=
  { listNamespacesResult := Fallible.err,
    listPodsResult := fun _ => Fallible.ok [],
    podEnv := fun _ _ => envFor samplePod }

/-- A scan cycle in which listing the pods of namespace `kube-system`
fails while everything else succeeds. -/
def failPodsEnv : ScanEnv :=
  { listNamespacesResult := Fallible.ok ["kube-system", "default"],
    listPodsResult := fun ns =>
      if ns = "kube-system" then Fallible.err else Fallible.ok ["pod-1"],
    podEnv := fun _ _ => envFor samplePod }

/-! Theorems settling the claims. -/

/-- Helper: the delete call trace of `deletePod` is the single zero-grace
delete, whatever the API answers. -/
theorem deletePod_calls (cli : CLI) (env : PodEnv) (pod : Pod) :
    (deletePod cli env pod).1 = [APICall.delete pod.«namespace» pod.name 0] := by
  cases hd : env.deleteResult <;> simp [deletePod, hd]
  split <;> simp

/-- Helper: a traced run with a non-empty call list yields the existential
form used in the eligibility statement. -/
theorem exists_calls_ne_nil {o : Option (List APICall × List LogEntry)}
    {C : List APICall} (h : o.map Prod.fst = some C) (hC : C ≠ []) :
    ∃ calls logs, o = some (calls, logs) ∧ calls ≠ [] := by
  cases o with
  | none => simp at h
  | some p =>
    refine ⟨p.1, p.2, rfl, ?_⟩
    simp at h
    rwa [h]

/-- C6: every delete call issued by `deletePod` carries
`gracePeriodSeconds = 0`; a not-found outcome (a `StatusError` with code
404) is treated as success and logged at warning level, never producing an
error-level entry; any other error, including a `StatusError` with a
different code, is logged at error severity and is the only entry, so the
pod is abandoned for the cycle. -/
theorem deletePod_zero_grace_notfound_warn (cli : CLI) (env : PodEnv) (pod : Pod) :
    (deletePod cli env pod).1 = [APICall.delete pod.«namespace» pod.name 0] ∧
    (env.deleteResult = DeleteResult.ok ∨ env.deleteResult = DeleteResult.statusErr 404 →
      (deletePod cli env pod).2 =
        [(LogLevel.warn, LogMsg.forceDeleted pod.«namespace» pod.name)] ∧
      ∀ e, e ∈ (deletePod cli env pod).2 → e.1 ≠ LogLevel.error) ∧
    (∀ code, env.deleteResult = DeleteResult.statusErr code → code ≠ 404 →
      (deletePod cli env pod).2 =
        [(LogLevel.error, LogMsg.cannotForceDelete pod.«namespace» pod.name)]) ∧
    (env.deleteResult = DeleteResult.otherErr →
      (deletePod cli env pod).2 =
        [(LogLevel.error, LogMsg.cannotForceDelete pod.«namespace» pod.name)]) := by
  obtain ⟨g, u, d⟩ := env
  cases d with
  | ok => simp [deletePod]
  | statusErr code => by_cases h : code = 404 <;> simp [deletePod, h]
  | otherErr => simp [deletePod]

/-- Witness for C6 at a concrete 404 environment. -/
theorem deletePod_zero_grace_notfound_warn_witness :
    (deletePod sampleCLI env404 samplePod).1 = [APICall.delete "default" "pod-1" 0] ∧
    (deletePod sampleCLI env404 samplePod).2 =
      [(LogLevel.warn, LogMsg.forceDeleted "default" "pod-1")] := by
  have h := deletePod_zero_grace_notfound_warn sampleCLI env404 samplePod
  exact ⟨by simpa using h.1, by simpa using (h.2.1 (Or.inr rfl)).1⟩

/-- C3: a fetched pod with an owner reference of kind "Node" and a present
`deletionTimestamp` causes no update and no delete call, no matter how old
the timestamp is: the evaluator logs one warning and returns. -/
theorem processPod_static_no_action (cli : CLI) (env : PodEnv) (ns podName : String)
    (now : Int) (pod : Pod) (dts : Int)
    (hget : env.getResult = Fallible.ok pod)
    (hstatic : isStaticPod pod = true)
    (hdts : pod.deletionTimestamp = some dts) :
    processPod cli env ns podName now =
      some ([], [(LogLevel.warn,
                  LogMsg.cannotTerminateStaticPod pod.«namespace» pod.name)]) := by
  simp [processPod, hget, hdts, hstatic]

/-- Witness for C3: the node-owned pod, terminating since instant 0,
evaluated 10000 s later. -/
theorem processPod_static_no_action_witness :
    processPod sampleCLI (envFor nodeOwnedPod) "default" "pod-1" sampleNow =
      some ([], [(LogLevel.warn,
                  LogMsg.cannotTerminateStaticPod "default" "pod-1")]) := by
  have h := processPod_static_no_action sampleCLI (envFor nodeOwnedPod) "default" "pod-1"
    sampleNow nodeOwnedPod 0 rfl (by decide) rfl
  simpa using h

/-- C4: a qualifying pod evaluated with `dryRun = true` produces no update
and no delete call; the evaluator logs the intended action — the pod's
identity and its current finalizers — and returns. -/
theorem processPod_dry_run_no_calls (cli : CLI) (env : PodEnv) (ns podName : String)
    (now : Int) (pod : Pod) (dts tgps : Int)
    (hget : env.getResult = Fallible.ok pod)
    (hdts : pod.deletionTimestamp = some dts)
    (hstatic : isStaticPod pod = false)
    (htgps : pod.terminationGracePeriodSeconds = some tgps)
    (hqual : now - dts > tgps * nsPerSecond + cli.gracePeriod)
    (hdry : cli.dryRun = true) :
    processPod cli env ns podName now =
      some ([], [(LogLevel.warn, LogMsg.terminatingExceeded pod.«namespace» pod.name),
                 (LogLevel.warn,
                  LogMsg.wouldBeForceDeleted pod.«namespace» pod.name pod.finalizers)]) := by
  have hlt : dts < now - (tgps * nsPerSecond + cli.gracePeriod) := by
    have h := hqual
    simp only [nsPerSecond] at h ⊢
    omega
  simp [processPod, hget, hdts, hstatic, htgps, hdry, hlt]

/-- Witness for C4 at the sample pod under `dryRunCLI`. -/
theorem processPod_dry_run_no_calls_witness :
    processPod dryRunCLI (envFor samplePod) "default" "pod-1" sampleNow =
      some ([], [(LogLevel.warn, LogMsg.terminatingExceeded "default" "pod-1"),
                 (LogLevel.warn,
                  LogMsg.wouldBeForceDeleted "default" "pod-1" ["kubernetes"])]) := by
  have h := processPod_dry_run_no_calls dryRunCLI (envFor samplePod) "default" "pod-1"
    sampleNow samplePod 0 30 rfl rfl (by decide) rfl (by decide) rfl
  simpa using h

/-- C5: for a qualifying pod under `--no-remove-finalizers` with a
non-empty finalizer list, the Finalizer Remover logs a warning and reports
failure without issuing an update, and `processPod` consequently issues no
API call at all — in particular no delete. -/
theorem removeFinalizers_policy_off_no_delete (cli : CLI) (env : PodEnv)
    (ns podName : String) (now : Int) (pod : Pod) (dts tgps : Int)
    (hget : env.getResult = Fallible.ok pod)
    (hdts : pod.deletionTimestamp = some dts)
    (hstatic : isStaticPod pod = false)
    (htgps : pod.terminationGracePeriodSeconds = some tgps)
    (hqual : now - dts > tgps * nsPerSecond + cli.gracePeriod)
    (hnr : cli.noRemoveFinalizers = true)
    (hfin : pod.finalizers ≠ []) :
    removeFinalizers cli env pod =
      (false, [],
       [(LogLevel.warn, LogMsg.cannotDeleteHasFinalizers pod.«namespace» pod.name)]) ∧
    (processPod cli env ns podName now).map Prod.fst = some [] := by
  have hlen : ¬ pod.finalizers.length = 0 := by simpa using hfin
  have hlt : dts < now - (tgps * nsPerSecond + cli.gracePeriod) := by
    have h := hqual
    simp only [nsPerSecond] at h ⊢
    omega
  refine ⟨by simp [removeFinalizers, hlen, hnr], ?_⟩
  cases hdry : cli.dryRun <;>
    simp [processPod, removeFinalizers, hget, hdts, hstatic, htgps, hlt, hnr, hlen, hdry]

/-- Witness for C5 at the sample pod under `noRemoveCLI`. -/
theorem removeFinalizers_policy_off_no_delete_witness :
    removeFinalizers noRemoveCLI (envFor samplePod) samplePod =
      (false, [], [(LogLevel.warn, LogMsg.cannotDeleteHasFinalizers "default" "pod-1")]) ∧
    (processPod noRemoveCLI (envFor samplePod) "default" "pod-1" sampleNow).map Prod.fst =
      some [] := by
  have h := removeFinalizers_policy_off_no_delete noRemoveCLI (envFor samplePod)
    "default" "pod-1" sampleNow samplePod 0 30 rfl rfl (by decide) rfl (by decide) rfl
    (by decide)
  exact ⟨by simpa using h.1, h.2⟩

/-- C2: for a qualifying pod with `dryRun = false` and finalizer removal
enabled, the call trace starts with the update clearing the finalizers; a
delete follows only when the update succeeded, and an update failure
leaves the update as the only call — no delete this cycle. -/
theorem processPod_update_before_delete (cli : CLI) (env : PodEnv)
    (ns podName : String) (now : Int) (pod : Pod) (dts tgps : Int)
    (hget : env.getResult = Fallible.ok pod)
    (hdts : pod.deletionTimestamp = some dts)
    (hstatic : isStaticPod pod = false)
    (htgps : pod.terminationGracePeriodSeconds = some tgps)
    (hqual : now - dts > tgps * nsPerSecond + cli.gracePeriod)
    (hdry : cli.dryRun = false)
    (hnr : cli.noRemoveFinalizers = false)
    (hfin : pod.finalizers ≠ []) :
    (processPod cli env ns podName now).map Prod.fst =
      some (APICall.update pod.«namespace» pod.name [] ::
        (match env.updateResult with
         | none => [APICall.delete pod.«namespace» pod.name 0]
         | some _ => [])) := by
  have hlen : ¬ pod.finalizers.length = 0 := by simpa using hfin
  have hlt : dts < now - (tgps * nsPerSecond + cli.gracePeriod) := by
    have h := hqual
    simp only [nsPerSecond] at h ⊢
    omega
  cases hu : env.updateResult with
  | none =>
    cases hd : env.deleteResult with
    | ok =>
      simp [processPod, removeFinalizers, deletePod, hget, hdts, hstatic, htgps,
        hdry, hnr, hu, hd, hlt, hlen]
    | statusErr code =>
      by_cases h404 : code = 404 <;>
        simp [processPod, removeFinalizers, deletePod, hget, hdts, hstatic, htgps,
          hdry, hnr, hu, hd, h404, hlt, hlen]
    | otherErr =>
      simp [processPod, removeFinalizers, deletePod, hget, hdts, hstatic, htgps,
        hdry, hnr, hu, hd, hlt, hlen]
  | some u =>
    simp [processPod, removeFinalizers, hget, hdts, hstatic, htgps, hdry, hnr, hu,
      hlt, hlen]

/-- Witness for C2: the sample pod with a succeeding update — the trace is
the finalizer-clearing update followed by the zero-grace delete. -/
theorem processPod_update_before_delete_witness :
    (processPod sampleCLI (envFor samplePod) "default" "pod-1" sampleNow).map Prod.fst =
      some [APICall.update "default" "pod-1" [], APICall.delete "default" "pod-1" 0] := by
  have h := processPod_update_before_delete sampleCLI (envFor samplePod) "default" "pod-1"
    sampleNow samplePod 0 30 rfl rfl (by decide) rfl (by decide) rfl rfl (by decide)
  simpa using h

/-- C9: for a fetched pod with a present `deletionTimestamp` that is not
static, `processPod` hits its error branch (the unguarded dereference of
`TerminationGracePeriodSeconds`) exactly when that optional field is
absent; it is total whenever the field is present. -/
theorem processPod_tgps_deref (cli : CLI) (env : PodEnv) (ns podName : String)
    (now : Int) (pod : Pod) (dts : Int)
    (hget : env.getResult = Fallible.ok pod)
    (hdts : pod.deletionTimestamp = some dts)
    (hstatic : isStaticPod pod = false) :
    (processPod cli env ns podName now = none ↔
      pod.terminationGracePeriodSeconds = none) := by
  cases htg : pod.terminationGracePeriodSeconds with
  | none => simp [processPod, hget, hdts, hstatic, htg]
  | some tgps =>
    obtain ⟨b, c, l, hrf⟩ : ∃ b c l, removeFinalizers cli env pod = (b, c, l) :=
      ⟨_, _, _, rfl⟩
    cases b <;> cases hdry : cli.dryRun <;>
      simp [processPod, hget, hdts, hstatic, htg, hrf, hdry] <;>
      split <;> simp

/-- Witness for C9: the pod with a nil `terminationGracePeriodSeconds`
reaches the error branch. -/
theorem processPod_tgps_deref_witness :
    processPod sampleCLI (envFor nilGracePod) "default" "pod-1" sampleNow = none :=
  (processPod_tgps_deref sampleCLI (envFor nilGracePod) "default" "pod-1" sampleNow
    nilGracePod 0 rfl rfl (by decide)).mpr rfl

/-- C10: with an empty finalizer list the Finalizer Remover reports
success with no update call and no log, whatever the configuration — the
policy flag is never consulted — and a qualifying such pod is force
deleted even under `--no-remove-finalizers`. -/
theorem removeFinalizers_empty_bypasses_policy (cli : CLI) (env : PodEnv)
    (ns podName : String) (now : Int) (pod : Pod) (dts tgps : Int)
    (hget : env.getResult = Fallible.ok pod)
    (hdts : pod.deletionTimestamp = some dts)
    (hstatic : isStaticPod pod = false)
    (htgps : pod.terminationGracePeriodSeconds = some tgps)
    (hqual : now - dts > tgps * nsPerSecond + cli.gracePeriod)
    (hdry : cli.dryRun = false)
    (hnr : cli.noRemoveFinalizers = true)
    (hfin : pod.finalizers = []) :
    (∀ c e, removeFinalizers c e pod = (true, [], [])) ∧
    (processPod cli env ns podName now).map Prod.fst =
      some [APICall.delete pod.«namespace» pod.name 0] := by
  have hlt : dts < now - (tgps * nsPerSecond + cli.gracePeriod) := by
    have h := hqual
    simp only [nsPerSecond] at h ⊢
    omega
  refine ⟨fun c e => by simp [removeFinalizers, hfin], ?_⟩
  cases hd : env.deleteResult with
  | ok =>
    simp [processPod, removeFinalizers, deletePod, hget, hdts, hstatic, htgps,
      hdry, hfin, hlt, hd]
  | statusErr code =>
    by_cases h404 : code = 404 <;>
      simp [processPod, removeFinalizers, deletePod, hget, hdts, hstatic, htgps,
        hdry, hfin, hlt, hd, h404]
  | otherErr =>
    simp [processPod, removeFinalizers, deletePod, hget, hdts, hstatic, htgps,
      hdry, hfin, hlt, hd]

/-- Witness for C10: the finalizer-free pod under `noRemoveCLI` is still
force deleted. -/
theorem removeFinalizers_empty_bypasses_policy_witness :
    removeFinalizers noRemoveCLI (envFor emptyFinPod) emptyFinPod = (true, [], []) ∧
    (processPod noRemoveCLI (envFor emptyFinPod) "default" "pod-1" sampleNow).map Prod.fst =
      some [APICall.delete "default" "pod-1" 0] := by
  have h := removeFinalizers_empty_bypasses_policy noRemoveCLI (envFor emptyFinPod)
    "default" "pod-1" sampleNow emptyFinPod 0 30 rfl rfl (by decide) rfl (by decide) rfl
    rfl rfl
  exact ⟨h.1 noRemoveCLI (envFor emptyFinPod), by simpa using h.2⟩

/-- C1 counterexample: under `--dry-run` the sample pod satisfies every
eligibility condition of the claim — `deletionTimestamp` present, no owner
reference of kind "Node", and `now − deletionTimestamp` strictly above
`terminationGracePeriodSeconds + gracePeriod` — yet no mutating call is
issued, so "a mutating action is taken iff the conditions hold" fails as
stated. -/
theorem processPod_eligible_without_action :
    samplePod.deletionTimestamp = some 0 ∧
    isStaticPod samplePod = false ∧
    samplePod.terminationGracePeriodSeconds = some 30 ∧
    sampleNow - 0 > 30 * nsPerSecond + dryRunCLI.gracePeriod ∧
    (processPod dryRunCLI (envFor samplePod) "default" "pod-1" sampleNow).map Prod.fst =
      some [] := by
  decide

/-- C1 amended: with `dryRun = false`, finalizer removal enabled, and the
pod's `terminationGracePeriodSeconds` present, a mutating call (finalizer
clear or force delete) is issued iff `deletionTimestamp` is present, no
owner reference has kind "Node", and `now − deletionTimestamp` strictly
exceeds `terminationGracePeriodSeconds + gracePeriod`; and (for any
configuration) a non-static pod still inside the synthetic grace window is
left alone with nothing logged. -/
theorem processPod_mutates_iff (cli : CLI) (env : PodEnv) (ns podName : String)
    (now : Int) (pod : Pod) (tgps : Int)
    (hget : env.getResult = Fallible.ok pod)
    (htgps : pod.terminationGracePeriodSeconds = some tgps) :
    (cli.dryRun = false → cli.noRemoveFinalizers = false →
      ((∃ calls logs, processPod cli env ns podName now = some (calls, logs) ∧ calls ≠ []) ↔
        (∃ dts, pod.deletionTimestamp = some dts ∧ isStaticPod pod = false ∧
          now - dts > tgps * nsPerSecond + cli.gracePeriod))) ∧
    (∀ dts, pod.deletionTimestamp = some dts → isStaticPod pod = false →
      ¬ now - dts > tgps * nsPerSecond + cli.gracePeriod →
      processPod cli env ns podName now = some ([], [])) := by
  constructor
  · intro hdry hnr
    constructor
    · rintro ⟨calls, logs, hpp, hne⟩
      cases hdts : pod.deletionTimestamp with
      | none =>
        simp [processPod, hget, hdts] at hpp
        exact absurd hpp.1 hne
      | some dts =>
        cases hstatic : isStaticPod pod with
        | true =>
          simp [processPod, hget, hdts, hstatic] at hpp
          exact absurd hpp.1 hne
        | false =>
          by_cases hq : now - dts > tgps * nsPerSecond + cli.gracePeriod
          · exact ⟨dts, rfl, rfl, hq⟩
          · have hnlt : ¬ dts < now - (tgps * nsPerSecond + cli.gracePeriod) := by
              have h := hq
              simp only [nsPerSecond] at h ⊢
              omega
            simp [processPod, hget, hdts, hstatic, htgps, hnlt] at hpp
            exact absurd hpp.1 hne
    · rintro ⟨dts, hdts, hstatic, hq⟩
      have hlt : dts < now - (tgps * nsPerSecond + cli.gracePeriod) := by
        have h := hq
        simp only [nsPerSecond] at h ⊢
        omega
      by_cases hfin : pod.finalizers.length = 0
      · have hmap : (processPod cli env ns podName now).map Prod.fst =
            some [APICall.delete pod.«namespace» pod.name 0] := by
          simp [processPod, removeFinalizers, hget, hdts, hstatic, htgps, hdry,
            hfin, hlt, deletePod_calls]
        exact exists_calls_ne_nil hmap (by simp)
      · cases hu : env.updateResult with
        | none =>
          have hmap : (processPod cli env ns podName now).map Prod.fst =
              some [APICall.update pod.«namespace» pod.name [],
                    APICall.delete pod.«namespace» pod.name 0] := by
            simp [processPod, removeFinalizers, hget, hdts, hstatic, htgps, hdry,
              hnr, hfin, hu, hlt, deletePod_calls]
          exact exists_calls_ne_nil hmap (by simp)
        | some u =>
          have hmap : (processPod cli env ns podName now).map Prod.fst =
              some [APICall.update pod.«namespace» pod.name []] := by
            simp [processPod, removeFinalizers, hget, hdts, hstatic, htgps, hdry,
              hnr, hfin, hu, hlt]
          exact exists_calls_ne_nil hmap (by simp)
  · intro dts hdts hstatic hq
    have hnlt : ¬ dts < now - (tgps * nsPerSecond + cli.gracePeriod) := by
      have h := hq
      simp only [nsPerSecond] at h ⊢
      omega
    simp [processPod, hget, hdts, hstatic, htgps, hnlt]

/-- Witness for the amended C1: the sample pod is eligible and under
`sampleCLI` a mutating call is indeed issued. -/
theorem processPod_mutates_iff_witness :
    ∃ calls logs,
      processPod sampleCLI (envFor samplePod) "default" "pod-1" sampleNow =
        some (calls, logs) ∧ calls ≠ [] := by
  have h := processPod_mutates_iff sampleCLI (envFor samplePod) "default" "pod-1"
    sampleNow samplePod 30 rfl rfl
  exact (h.1 rfl rfl).mpr ⟨0, rfl, by decide, by decide⟩

/-- C7: a failed namespace listing skips the whole cycle non-fatally (the
loop keeps running, nothing is processed), while a failed pod listing in
one namespace skips only that namespace: the scan result is exactly the
result over the remaining namespaces plus one error log. -/
theorem scan_skips_failed_listings (cli : CLI) (envA envB : ScanEnv) (now : Int)
    (ch : Option Unit) (nsBad : String) (rest : List String)
    (hns : envA.listNamespacesResult = Fallible.err)
    (hpods : envB.listPodsResult nsBad = Fallible.err)
    (hsel : cli.namespaces.length > 0 → cli.namespaces.contains nsBad = true) :
    processNamespaces cli envA now ch =
      some { keepRunning := true, chan := ch,
             logs := [(LogLevel.error, LogMsg.cannotListNamespaces)], processed := [] } ∧
    processNamespacesAux cli envB now ch (nsBad :: rest) =
      (processNamespacesAux cli envB now ch rest).map
        (fun r => { keepRunning := r.keepRunning, chan := r.chan,
                    logs := (LogLevel.error, LogMsg.cannotListPods nsBad) :: r.logs,
                    processed := r.processed }) := by
  constructor
  · simp [processNamespaces, hns]
  · have hmem : 0 < cli.namespaces.length → nsBad ∈ cli.namespaces := by
      intro h1
      have h2 := hsel h1
      simpa using h2
    cases hrest : processNamespacesAux cli envB now ch rest with
    | none => simp [processNamespacesAux, hpods, hrest]
    | some r =>
      simp [processNamespacesAux, hpods, hrest]
      intro h1 h2
      exact absurd (hmem h1) h2

/-- Witness for C7 at concrete failing environments. -/
theorem scan_skips_failed_listings_witness :
    processNamespaces sampleCLI failNsEnv sampleNow none =
      some { keepRunning := true, chan := none,
             logs := [(LogLevel.error, LogMsg.cannotListNamespaces)], processed := [] } ∧
    processNamespacesAux sampleCLI failPodsEnv sampleNow none ["kube-system", "default"] =
      (processNamespacesAux sampleCLI failPodsEnv sampleNow none ["default"]).map
        (fun r => { keepRunning := r.keepRunning, chan := r.chan,
                    logs := (LogLevel.error, LogMsg.cannotListPods "kube-system") :: r.logs,
                    processed := r.processed }) := by
  exact scan_skips_failed_listings sampleCLI failNsEnv failPodsEnv sampleNow none
    "kube-system" ["default"] rfl (by decide) (by decide)

/-- C8 counterexample: after the handler raises the signal once (and it is
never reset by anyone), the first non-blocking check observes it, but the
check consumes the buffered message, so the very next check observes it as
not raised — refuting "every subsequent check observes it as raised". -/
theorem signalRaised_not_observe_many :
    (signalRaised (raiseSignal none)).1 = true ∧
    (signalRaised (signalRaised (raiseSignal none)).2).1 = false := by
  decide

/-- C8 amended: the signal is raised at most once and a raise is observed
by the next check (`sleep` is likewise cut short), but the semantics are
consume-once rather than observe-many: a check observes the signal iff the
single message is still buffered, a successful observation consumes it,
and any later check observes it as not raised. -/
theorem signalRaised_consume_once (ch : Option Unit) (b : Bool) :
    ((signalRaised (raiseSignal ch)).1 = true) ∧
    ((sleep (raiseSignal ch) b).1 = false) ∧
    ((signalRaised ch).1 = true ↔ ch = some ()) ∧
    ((signalRaised ch).2 = none) ∧
    ((signalRaised (signalRaised ch).2).1 = false) := by
  cases ch with
  | none => cases b <;> simp [signalRaised, sleep, raiseSignal]
  | some u => cases u; cases b <;> simp [signalRaised, sleep, raiseSignal]

end Terminator
